import Mathlib

/-!
Shallow embedding of the Letterboxd Home Assistant integration
(`custom_components/letterboxd`), covering the parts the claims are about:

* entry-text normalization (title / rating / year / image / date extraction in
  `LetterboxdFeedCoordinator._async_update_data`, coordinator.py lines 101-160),
* the stable-identity function `_movie_unique_id_from_link_date` (a SHA-256
  hex digest truncated to 32 characters, namespaced by entry id and feed name),
* the merge / sort / truncate / persist pipeline (coordinator.py lines 189-216)
  together with `_load_stored` / `_save_stored`,
* the setup-time feed validation `validate_feed` (config_flow.py lines 32-54).

Python strings are modelled as Lean `String` / `List Char`; machine words in
SHA-256 as `Nat` reduced mod 2^32; fallible collaborator calls (`Store` load
and save, which in the source happen outside any try/except) as
`Except String` values.
-/

namespace Letterboxd

/-- Python `str.strip()` whitespace class (the ASCII part, which is all the
feed data exercises): space, tab, newline, carriage return, vertical tab,
form feed. -/
def isPySpace (c : Char) : Bool :=
  c = ' ' ∨ c = '\t' ∨ c = '\n' ∨ c = '\r' ∨ c = '\x0b' ∨ c = '\x0c'

/-- Python `str.strip()`: drop leading and trailing whitespace. -/
def pyStrip (cs : List Char) : List Char :=
  ((cs.dropWhile isPySpace).reverse.dropWhile isPySpace).reverse

/-- Value of a list of decimal digit characters. -/
def digitsVal (ds : List Char) : Nat :=
  ds.foldl (fun n c => 10 * n + (c.toNat - 48)) 0

/-- The filled-star glyph counted by `title.count("★")`. -/
def starChar : Char := '★'

/-- The half-star glyph tested by `"½" in title`. -/
def halfChar : Char := '½'

/-- coordinator.py lines 106-111: if a filled star occurs in the title, the
rating is the star count plus 0.5 when a half star is present anywhere in the
title, and the title is cut at the first star and stripped; otherwise the
rating is absent and the title is untouched. -/
def stripRating (title : List Char) : List Char × Option Rat :=
  if title.contains starChar then
    let stars : Nat := title.count starChar
    let rating : Rat := (stars : Rat) + (if title.contains halfChar then (1 : Rat) / 2 else 0)
    (pyStrip (title.takeWhile (fun c => c != starChar)), some rating)
  else (title, none)

/-- The suffix shape of `re.search(r',\s*(\d{4})\s*-?\s*$', title)` after the
comma: optional whitespace, exactly four digits, optional whitespace, an
optional dash, optional whitespace, end of string. -/
def yearShape (cs : List Char) : Option Nat :=
  let cs1 := cs.dropWhile isPySpace
  let ds := cs1.take 4
  let rest := cs1.drop 4
  if ds.length = 4 ∧ ds.all Char.isDigit then
    let r1 := rest.dropWhile isPySpace
    let r2 := match r1 with
      | '-' :: t => t
      | _ => r1
    if (r2.dropWhile isPySpace).isEmpty then some (digitsVal ds) else none
  else none

/-- Leftmost match of `,\s*(\d{4})\s*-?\s*$` (shared by the `re.search` and
the `re.sub` on coordinator.py lines 114-117): returns the prefix before the
matched comma together with the year, or `none` when the pattern fails. -/
def findTrailingYear : List Char → Option (List Char × Nat)
  | [] => none
  | c :: cs =>
    if c = ',' then
      match yearShape cs with
      | some y => some ([], y)
      | none => (findTrailingYear cs).map (fun p => (c :: p.1, p.2))
    else (findTrailingYear cs).map (fun p => (c :: p.1, p.2))

/-- Does `\((\d{4})\)` match at the head of the list? -/
def parenYearHere : List Char → Option Nat
  | '(' :: d1 :: d2 :: d3 :: d4 :: ')' :: _ =>
    if d1.isDigit && d2.isDigit && d3.isDigit && d4.isDigit then
      some (digitsVal [d1, d2, d3, d4])
    else none
  | _ => none

/-- Leftmost match of `re.search(r'\((\d{4})\)', title)`. -/
def findParenYear : List Char → Option Nat
  | [] => none
  | c :: rest =>
    match parenYearHere (c :: rest) with
    | some y => some y
    | none => findParenYear rest

/-- Python `title.rsplit("(", 1)[0]`: everything before the last `(`, or the
whole string when no `(` occurs. -/
def beforeLastOpenParen (cs : List Char) : List Char :=
  if cs.contains '(' then ((cs.reverse.dropWhile (fun c => c != '(')).tail).reverse
  else cs

/-- coordinator.py lines 113-123: first try the trailing `, YYYY` / `, YYYY-`
pattern (extract the year, strip the matched suffix); otherwise, when the
title contains both `(` and `)`, search for `(YYYY)` for the year and cut the
title at the last `(` regardless of whether the year search succeeded; the
final `title.strip()` of line 123 is applied on every path. -/
def stripYear (title : List Char) : List Char × Option Nat :=
  match findTrailingYear title with
  | some (pre, y) => (pyStrip pre, some y)
  | none =>
    if title.contains '(' ∧ title.contains ')' then
      (pyStrip (beforeLastOpenParen title), findParenYear title)
    else (pyStrip title, none)

/-- coordinator.py lines 102-123: initial `entry.get("title", "").strip()`,
then rating extraction, then year extraction. Returns (title, rating, year). -/
def parseTitleFields (raw : Option String) : List Char × Option Rat × Option Nat :=
  let t0 := pyStrip (raw.getD "").data
  let (t1, rating) := stripRating t0
  let (t2, year) := stripYear t1
  (t2, rating, year)

/-- `cs` starts with the character list `pre`. -/
def startsWithChars (cs pre : List Char) : Bool := cs.take pre.length == pre

/-- Substring test, Python's `pat in cs`. -/
def containsSub (cs pat : List Char) : Bool :=
  match cs with
  | [] => pat.isEmpty
  | _ :: rest => startsWithChars cs pat || containsSub rest pat

/-- The two quote characters of `["\']` in the image regex. -/
def isQuoteChar (c : Char) : Bool := c = '\x22' ∨ c = '\x27'

/-- After `src=`: a quote character, then a nonempty run of non-quote
characters (the captured group), then a closing quote character. -/
def tryQuote : List Char → Option (List Char)
  | [] => none
  | q :: rest =>
    if isQuoteChar q then
      let body := rest.takeWhile (fun c => !isQuoteChar c)
      if 0 < body.length ∧ body.length < rest.length then some body else none
    else none

def srcLit : List Char := ['s', 'r', 'c', '=']

def imgLit : List Char := ['<', 'i', 'm', 'g']

/-- Backtracking for `[^>]+src=...` after a `<img` start: `cs` is the text
following `<img`; positions for `src=` are tried from the greediest
(rightmost) down to offset 1, each requiring the skipped-over characters to
contain no `>`. -/
def tryImgGo (cs : List Char) : Nat → Option (List Char)
  | 0 => none
  | j + 1 =>
    if (cs.take (j + 1)).all (fun c => c != '>') ∧ startsWithChars (cs.drop (j + 1)) srcLit then
      match tryQuote (cs.drop (j + 5)) with
      | some b => some b
      | none => tryImgGo cs j
    else tryImgGo cs j

/-- `re.search(r'<img[^>]+src=["\']([^"\']+)["\']', text)`: scan left to
right for a `<img` start whose remainder admits a match, and return the
captured group. -/
def imgSearch : List Char → Option (List Char)
  | [] => none
  | c :: rest =>
    if startsWithChars (c :: rest) imgLit then
      match tryImgGo (rest.drop 3) (rest.drop 3).length with
      | some b => some b
      | none => imgSearch rest
    else imgSearch rest

def imgTagLower : List Char := ['i', 'm', 'g']

/-- The `elif hasattr(entry, "summary")` fallback of coordinator.py
lines 135-141. -/
def summaryImg (summary : Option String) : Option String :=
  match summary with
  | some s => (imgSearch s.data).map (fun b => String.mk b)
  | none => none

/-- coordinator.py lines 125-141: when the entry has a nonempty list of
content blocks, every block whose value contains `img` case-insensitively is
searched and each successful search overwrites `image_url` (so the last
qualifying, matching block wins and the summary is never consulted);
otherwise the summary, when present, is searched. -/
def extractImage (content : Option (List String)) (summary : Option String) : Option String :=
  match content with
  | some blocks =>
    if !blocks.isEmpty then
      blocks.foldl (fun acc v =>
        if containsSub (v.data.map Char.toLower) imgTagLower then
          match imgSearch v.data with
          | some b => some (String.mk b)
          | none => acc
        else acc) none
    else summaryImg summary
  | none => summaryImg summary

/-- Decimal digits of `n`, at least `w` wide, zero padded. -/
def padNum (w n : Nat) : List Char :=
  let ds := (Nat.toDigits 10 n)
  List.replicate (w - ds.length) '0' ++ ds

/-- Days in a month, as validated by `datetime`. -/
def daysInMonth (y m : Nat) : Nat :=
  if m = 2 then (if (y % 4 = 0 ∧ y % 100 ≠ 0) ∨ y % 400 = 0 then 29 else 28)
  else if m = 4 ∨ m = 6 ∨ m = 9 ∨ m = 11 then 30 else 31

/-- `datetime(y, mo, d, h, mi, s).isoformat()` with `datetime`'s range
validation; `none` models the `ValueError` swallowed on line 147-148. -/
def mkDatetimeIso (y mo d h mi s : Nat) : Option String :=
  if 1 ≤ y ∧ y ≤ 9999 ∧ 1 ≤ mo ∧ mo ≤ 12 ∧ 1 ≤ d ∧ d ≤ daysInMonth y mo ∧
      h ≤ 23 ∧ mi ≤ 59 ∧ s ≤ 59 then
    some (String.mk (padNum 4 y ++ ['-'] ++ padNum 2 mo ++ ['-'] ++ padNum 2 d ++ ['T'] ++
      padNum 2 h ++ [':'] ++ padNum 2 mi ++ [':'] ++ padNum 2 s))
  else none

/-- `datetime(*published[:6]).isoformat()` for a `published_parsed` tuple:
fewer than three leading fields is a `TypeError` (also swallowed), missing
trailing fields default to zero. -/
def datetimeIso (fields : List Nat) : Option String :=
  match fields with
  | [y, mo, d] => mkDatetimeIso y mo d 0 0 0
  | [y, mo, d, h] => mkDatetimeIso y mo d h 0 0
  | [y, mo, d, h, mi] => mkDatetimeIso y mo d h mi 0
  | [y, mo, d, h, mi, s] => mkDatetimeIso y mo d h mi s
  | _ => none

/-! ### SHA-256 (`hashlib.sha256(raw.encode("utf-8")).hexdigest()`)

Machine words are `Nat` reduced mod `2 ^ 32`; bytes are `Nat` below 256. -/

/-- Reduce to a 32-bit word. -/
def w32 (n : Nat) : Nat := n % 4294967296

/-- Rotate a 32-bit word right by `n`. -/
def rotr32 (x n : Nat) : Nat := w32 ((x >>> n) ||| (x <<< (32 - n)))

/-- UTF-8 encoding of one code point. -/
def charUtf8 (c : Char) : List Nat :=
  let n := c.toNat
  if n < 128 then [n]
  else if n < 2048 then [192 + n / 64, 128 + n % 64]
  else if n < 65536 then [224 + n / 4096, 128 + (n / 64) % 64, 128 + n % 64]
  else [240 + n / 262144, 128 + (n / 4096) % 64, 128 + (n / 64) % 64, 128 + n % 64]

/-- Python `s.encode("utf-8")` as a byte list. -/
def utf8Bytes (s : String) : List Nat := (s.data.map charUtf8).flatten

/-- The 64 SHA-256 round constants: the fractional parts of the cube roots of
the first 64 primes, as 32-bit words. -/
def K256 : List Nat :=
  [1116352408, 1899447441, 3049323471, 3921009573, 961987163, 1508970993, 2453635748,
   2870763221, 3624381080, 310598401, 607225278, 1426881987, 1925078388, 2162078206,
   2614888103, 3248222580, 3835390401, 4022224774, 264347078, 604807628, 770255983,
   1249150122, 1555081692, 1996064986, 2554220882, 2821834349, 2952996808, 3210313671,
   3336571891, 3584528711, 113926993, 338241895, 666307205, 773529912, 1294757372,
   1396182291, 1695183700, 1986661051, 2177026350, 2456956037, 2730485921, 2820302411,
   3259730800, 3345764771, 3516065817, 3600352804, 4094571909, 275423344, 430227734,
   506948616, 659060556, 883997877, 958139571, 1322822218, 1537002063, 1747873779,
   1955562222, 2024104815, 2227730452, 2361852424, 2428436474, 2756734187, 3204031479,
   3329325298]

/-- The 8 SHA-256 initial hash words: fractional parts of the square roots of
the first 8 primes. -/
def H256 : List Nat :=
  [1779033703, 3144134277, 1013904242, 2773480762, 1359893119, 2600822924, 528734635,
   1541459225]

/-- Big-endian bytes of the 64-bit message length in bits. -/
def lenBytes (n : Nat) : List Nat := (List.range 8).map (fun i => (n >>> (8 * (7 - i))) % 256)

/-- SHA-256 padding: `0x80`, zeros to 56 mod 64, then the bit length. -/
def sha256pad (msg : List Nat) : List Nat :=
  let L := msg.length
  let z := (64 - ((L + 9) % 64)) % 64
  msg ++ [128] ++ List.replicate z 0 ++ lenBytes (8 * L)

/-- Split a byte list into 64-byte blocks. -/
def toBlocks (l : List Nat) : List (List Nat) :=
  if h : l = [] then [] else l.take 64 :: toBlocks (l.drop 64)
termination_by l.length
decreasing_by
  simp only [List.length_drop]
  have hl : l.length ≠ 0 := fun hz => h (List.length_eq_zero.mp hz)
  omega

/-- The 16 initial 32-bit schedule words of a block, big endian. -/
def wordsOfBlock (b : List Nat) : List Nat :=
  (List.range 16).map (fun i =>
    ((b.getD (4 * i) 0) <<< 24) + ((b.getD (4 * i + 1) 0) <<< 16) +
    ((b.getD (4 * i + 2) 0) <<< 8) + (b.getD (4 * i + 3) 0))

/-- Extend the message schedule by one word. -/
def scheduleStep (ws : List Nat) : List Nat :=
  let i := ws.length
  let x15 := ws.getD (i - 15) 0
  let x2 := ws.getD (i - 2) 0
  let s0 := (rotr32 x15 7) ^^^ (rotr32 x15 18) ^^^ (x15 >>> 3)
  let s1 := (rotr32 x2 17) ^^^ (rotr32 x2 19) ^^^ (x2 >>> 10)
  ws ++ [w32 (ws.getD (i - 16) 0 + s0 + ws.getD (i - 7) 0 + s1)]

/-- Iterate the schedule extension. -/
def extendSchedule : Nat → List Nat → List Nat
  | 0, ws => ws
  | n + 1, ws => extendSchedule n (scheduleStep ws)

/-- Working state of the compression loop. -/
structure Sha256State where
  a : Nat
  b : Nat
  c : Nat
  d : Nat
  e : Nat
  f : Nat
  g : Nat
  h : Nat

/-- One compression round on (round constant, schedule word). -/
def shaRound (st : Sha256State) (kw : Nat × Nat) : Sha256State :=
  let S1 := (rotr32 st.e 6) ^^^ (rotr32 st.e 11) ^^^ (rotr32 st.e 25)
  let ch := (st.e &&& st.f) ^^^ ((st.e ^^^ 4294967295) &&& st.g)
  let temp1 := w32 (st.h + S1 + ch + kw.1 + kw.2)
  let S0 := (rotr32 st.a 2) ^^^ (rotr32 st.a 13) ^^^ (rotr32 st.a 22)
  let maj := (st.a &&& st.b) ^^^ (st.a &&& st.c) ^^^ (st.b &&& st.c)
  let temp2 := w32 (S0 + maj)
  ⟨w32 (temp1 + temp2), st.a, st.b, st.c, w32 (st.d + temp1), st.e, st.f, st.g⟩

/-- Compress one 64-byte block into the running hash words. -/
def sha256Compress (hs : List Nat) (block : List Nat) : List Nat :=
  let ws := extendSchedule 48 (wordsOfBlock block)
  let st0 : Sha256State :=
    ⟨hs.getD 0 0, hs.getD 1 0, hs.getD 2 0, hs.getD 3 0,
     hs.getD 4 0, hs.getD 5 0, hs.getD 6 0, hs.getD 7 0⟩
  let st := (K256.zip ws).foldl shaRound st0
  [w32 (hs.getD 0 0 + st.a), w32 (hs.getD 1 0 + st.b), w32 (hs.getD 2 0 + st.c),
   w32 (hs.getD 3 0 + st.d), w32 (hs.getD 4 0 + st.e), w32 (hs.getD 5 0 + st.f),
   w32 (hs.getD 6 0 + st.g), w32 (hs.getD 7 0 + st.h)]

/-- SHA-256 digest of a byte list, as eight 32-bit words. -/
def sha256words (msg : List Nat) : List Nat :=
  (toBlocks (sha256pad msg)).foldl sha256Compress H256

/-- Lowercase hex digit. -/
def hexChar (n : Nat) : Char := if n < 10 then Char.ofNat (48 + n) else Char.ofNat (87 + n)

/-- Eight lowercase hex digits of a 32-bit word, big endian. -/
def wordHex (w : Nat) : List Char := (List.range 8).map (fun i => hexChar ((w >>> (4 * (7 - i))) % 16))

/-- `hashlib.sha256(bytes).hexdigest()`. -/
def sha256hexOfBytes (msg : List Nat) : String :=
  String.mk (((sha256words msg).map wordHex).flatten)

/-- `_movie_unique_id_from_link_date` (coordinator.py lines 218-222):
`f"{self.entry_id}_{self.feed_name}_{digest}"` where `digest` is the first
32 hex characters of `sha256(f"{link}|{date_added or ''}".encode()).hexdigest()`. -/
def movie_unique_id_from_link_date (entryId feedName link dateAdded : String) : String :=
  entryId ++ "_" ++ feedName ++ "_" ++ (sha256hexOfBytes (utf8Bytes (link ++ "|" ++ dateAdded))).take 32

/-! ### Data model, entry normalization, and the merge pipeline -/

/-- Per-feed static configuration (the fields of `LetterboxdFeedCoordinator`
used by `_async_update_data`). -/
structure FeedConfig where
  entry_id : String
  feed_name : String
  feed_url : String
  max_movies : Nat
  max_devices : Nat
deriving DecidableEq

/-- One raw decoded feed entry as `feedparser` hands it to the coordinator:
every field the loop at coordinator.py lines 101-160 reads. -/
structure RawEntry where
  title : Option String
  link : Option String
  published_parsed : Option (List Nat)
  published : Option String
  content : Option (List String)
  summary : Option String
deriving DecidableEq

/-- The movie record built at coordinator.py lines 151-159 (and stored). -/
structure Movie where
  movie_title : String
  rating : Option Rat
  year : Option Nat
  image_url : Option String
  date_added : String
  link : String
  unique_id : String
deriving DecidableEq

/-- coordinator.py lines 143-149: ISO string from the structured publish
time when present, truthy and constructible, else the raw publish string,
else the empty string. -/
def entryDateAdded (e : RawEntry) : String :=
  let viaStruct : Option String :=
    match e.published_parsed with
    | some fields => if fields.isEmpty then none else datetimeIso (fields.take 6)
    | none => none
  match viaStruct with
  | some s => s
  | none => e.published.getD ""

/-- One iteration of the parse loop (coordinator.py lines 101-160): the raw
entry normalized to a `Movie`. -/
def parseEntry (cfg : FeedConfig) (e : RawEntry) : Movie :=
  let tf := parseTitleFields e.title
  let link := e.link.getD ""
  let date_added := entryDateAdded e
  { movie_title := String.mk tf.1
    rating := tf.2.1
    year := tf.2.2
    image_url := extractImage e.content e.summary
    date_added := date_added
    link := link
    unique_id := movie_unique_id_from_link_date cfg.entry_id cfg.feed_name link date_added }

/-- `MAX_STORED_MOVIES` (const.py line 19). -/
def MAX_STORED_MOVIES : Nat := 500

/-- One iteration of the merge loop (coordinator.py lines 194-200) on the
state (stored_list, seen_links, seen_unique_ids): append the movie and
record its link and unique_id exactly when neither is already seen. -/
def mergeStep (st : List Movie × List String × List String) (movie : Movie) :
    List Movie × List String × List String :=
  if movie.link ∉ st.2.1 ∧ movie.unique_id ∉ st.2.2 then
    (st.1 ++ [movie], st.2.1 ++ [movie.link], st.2.2 ++ [movie.unique_id])
  else st

/-- coordinator.py lines 191-200: seed the seen sets from the stored list,
then run the merge loop over the parsed movies in feed order. -/
def merge_rss_into_stored (stored rss : List Movie) : List Movie :=
  (rss.foldl mergeStep (stored, stored.map (fun m => m.link), stored.map (fun m => m.unique_id))).1

/-- Python's `str` comparison `s <= t`: lexicographic on code points. -/
def pyStrLeChars : List Char → List Char → Bool
  | [], _ => true
  | _ :: _, [] => false
  | a :: as, b :: bs =>
    if a.toNat < b.toNat then true
    else if b.toNat < a.toNat then false
    else pyStrLeChars as bs

/-- Python `s <= t` on strings. -/
def pyStrLe (s t : String) : Bool := pyStrLeChars s.data t.data

theorem pyStrLeChars_total : ∀ s t, pyStrLeChars s t = true ∨ pyStrLeChars t s = true := by
  intro s
  induction s with
  | nil => intro t; left; rfl
  | cons a as ih =>
    intro t
    cases t with
    | nil => right; rfl
    | cons b bs =>
      simp only [pyStrLeChars]
      rcases Nat.lt_trichotomy a.toNat b.toNat with h | h | h
      · left; simp [h]
      · have h1 : ¬ a.toNat < b.toNat := by omega
        have h2 : ¬ b.toNat < a.toNat := by omega
        simpa [h1, h2] using ih bs
      · right; simp [h]

theorem pyStrLeChars_trans :
    ∀ s t u, pyStrLeChars s t = true → pyStrLeChars t u = true → pyStrLeChars s u = true := by
  intro s
  induction s with
  | nil => intro t u _ _; rfl
  | cons a as ih =>
    intro t u hst htu
    cases t with
    | nil => simp [pyStrLeChars] at hst
    | cons b bs =>
      cases u with
      | nil => simp [pyStrLeChars] at htu
      | cons c cs =>
        simp only [pyStrLeChars] at hst htu ⊢
        by_cases hab : a.toNat < b.toNat
        · by_cases hbc : b.toNat < c.toNat
          · simp [show a.toNat < c.toNat by omega]
          · by_cases hcb : c.toNat < b.toNat
            · simp [hbc, hcb] at htu
            · simp [show a.toNat < c.toNat by omega]
        · by_cases hba : b.toNat < a.toNat
          · simp [hab, hba] at hst
          · have habeq : a.toNat = b.toNat := by omega
            by_cases hbc : b.toNat < c.toNat
            · simp [show a.toNat < c.toNat by omega]
            · by_cases hcb : c.toNat < b.toNat
              · simp [hbc, hcb] at htu
              · have h1 : ¬ a.toNat < c.toNat := by omega
                have h2 : ¬ c.toNat < a.toNat := by omega
                simp only [hab, hba, if_neg, ite_false] at hst
                simp only [hbc, hcb, if_neg, ite_false] at htu
                simp [h1, h2, ih bs cs (by simpa using hst) (by simpa using htu)]

/-- The sort order of coordinator.py line 202:
`sort(key=lambda x: x.get(ATTR_DATE_ADDED, ""), reverse=True)` — descending
by Python's lexicographic comparison of the `date_added` strings. -/
def movieDescR (a b : Movie) : Prop := pyStrLe b.date_added a.date_added = true

instance : DecidableRel movieDescR :=
  fun a b => inferInstanceAs (Decidable (pyStrLe b.date_added a.date_added = true))

instance : IsTotal Movie movieDescR :=
  ⟨fun a b => pyStrLeChars_total b.date_added.data a.date_added.data⟩

instance : IsTrans Movie movieDescR :=
  ⟨fun _ _ _ hab hbc => pyStrLeChars_trans _ _ _ hbc hab⟩

/-- coordinator.py lines 202-203: sort descending by `date_added`, truncate
to `MAX_STORED_MOVIES`. Python's `list.sort` is a stable sort and a stable
sort's output is unique, so the stable `insertionSort` models it exactly. -/
def sortAndTrim (l : List Movie) : List Movie :=
  (l.insertionSort movieDescR).take MAX_STORED_MOVIES

/-- The whole history transformation of one successful merge cycle
(coordinator.py lines 191-203): dedup-append, sort, truncate. The result is
what line 204 persists. -/
def mergeCycle (stored rss : List Movie) : List Movie :=
  sortAndTrim (merge_rss_into_stored stored rss)

/-! ### Storage and the update entry point

`Store.async_load` / `Store.async_save` are awaited outside every
try/except in `_async_update_data` (and inside the bare except handlers),
so an exception from either propagates out of the coordinator; they are
modelled as `Except String`-valued collaborator behaviours, and
`async_update_data` is `Except`-valued accordingly, `.error` meaning an
exception escapes to the caller. -/

/-- The storage collaborator for one feed: the outcome of `async_load`
(`none` models a missing blob or one whose `movies` key is not a list) and
the outcome of `async_save`. -/
structure StorageBehavior where
  loadResult : Except String (Option (List Movie))
  saveResult : Except String Unit

/-- `_load_stored` (coordinator.py lines 224-234): `[]` when the blob is
missing or malformed, else the stored records with `unique_id` recomputed
in place from `(link, date_added)`. -/
def load_stored (cfg : FeedConfig) (store : StorageBehavior) : Except String (List Movie) := do
  let data ← store.loadResult
  match data with
  | none => pure []
  | some movies => pure (movies.map (fun m =>
      { m with unique_id :=
          movie_unique_id_from_link_date cfg.entry_id cfg.feed_name m.link m.date_added }))

/-- The output dict of `_async_update_data`. -/
structure UpdateOutput where
  movies : List Movie
  movies_for_devices : List Movie
  latest_movie : Option Movie
  feed_url : String
  last_update : String
  error : Option String
deriving DecidableEq

/-- The fallback dict the three error handlers all build (coordinator.py
lines 86-96, 162-174, 175-187): windows over the loaded stored history plus
an error string. -/
def fallbackOutput (cfg : FeedConfig) (stored : List Movie) (now errMsg : String) : UpdateOutput :=
  let movies := stored.take cfg.max_movies
  { movies := movies
    movies_for_devices := stored.take cfg.max_devices
    latest_movie := movies.head?
    feed_url := cfg.feed_url
    last_update := now
    error := some errMsg }

/-- How one fetch cycle ends, as seen from inside the try block of
`_async_update_data`: a transport error (`aiohttp.ClientError`), any other
exception raised while processing a successfully fetched feed (the bare
`except Exception` at line 175), or an HTTP response with a status and
decoded entries. -/
inductive FetchOutcome where
  | clientError (msg : String)
  | processingError (msg : String)
  | response (status : Nat) (entries : List RawEntry)

/-- `_async_update_data` (coordinator.py lines 73-216). Error outcomes and
non-200 statuses build a read-only fallback from the stored history; a 200
response parses, merges, persists and returns the windows. The second
component of the result is the history written by `_save_stored`, `none`
when no write happened. -/
def async_update_data (cfg : FeedConfig) (store : StorageBehavior) (outcome : FetchOutcome)
    (now : String) : Except String (UpdateOutput × Option (List Movie)) :=
  match outcome with
  | .clientError msg => do
    let stored ← load_stored cfg store
    pure (fallbackOutput cfg stored now msg, none)
  | .processingError msg => do
    let stored ← load_stored cfg store
    pure (fallbackOutput cfg stored now msg, none)
  | .response status entries =>
    if status ≠ 200 then do
      let stored ← load_stored cfg store
      pure (fallbackOutput cfg stored now ("HTTP " ++ toString status), none)
    else do
      let rss := entries.map (parseEntry cfg)
      let stored ← load_stored cfg store
      let merged := mergeCycle stored rss
      let _ ← store.saveResult
      let movies := merged.take cfg.max_movies
      pure ({ movies := movies
              movies_for_devices := merged.take cfg.max_devices
              latest_movie := movies.head?
              feed_url := cfg.feed_url
              last_update := now
              error := none }, some merged)

/-! ### Setup-time feed validation (config_flow.py) -/

/-- What the two exception classes of config_flow.py distinguish. -/
inductive FlowExc where
  | cannotConnect (msg : String)
  | invalidFeed (msg : String)
deriving DecidableEq

/-- The message carried by the exception (`str(err)`). -/
def excMessage : FlowExc → String
  | .cannotConnect m => m
  | .invalidFeed m => m

/-- How the single validation fetch ends: a transport error, or a response
with a status, decoded entries and feed title. -/
inductive ValidateOutcome where
  | clientError (msg : String)
  | response (status : Nat) (entries : List RawEntry) (feedTitle : Option String)

def letterboxdHost : List Char := "letterboxd.com".data

/-- The try-block body of `validate_feed` (config_flow.py lines 36-49): what
it raises or returns before the except clauses run. -/
def validate_feed_body (status : Nat) (entries : List RawEntry) (feedTitle : Option String) :
    Except FlowExc String :=
  if status ≠ 200 then .error (.cannotConnect ("HTTP " ++ toString status))
  else if entries.isEmpty then .error (.invalidFeed "Feed appears to be empty or invalid")
  else if !((entries.take 3).any (fun e => containsSub (e.link.getD "").data letterboxdHost)) then
    .error (.invalidFeed "Feed does not appear to be a valid Letterboxd feed")
  else .ok (feedTitle.getD "Letterboxd Feed")

/-- The kind of rejection `async_step_user` sees. -/
inductive ValidationResult where
  | cannotConnect (msg : String)
  | invalidFeed (msg : String)
  | valid (title : String)
deriving DecidableEq

/-- `validate_feed` (config_flow.py lines 32-54). An `aiohttp.ClientError`
from the fetch is caught by `except aiohttp.ClientError` and re-raised as
`CannotConnect`. Everything the try body itself raises — `CannotConnect`
for a non-200 status included, since `CannotConnect` is a
`HomeAssistantError`, not an `aiohttp.ClientError` — is caught by the
trailing `except Exception` and re-raised as
`InvalidFeed(f"Error parsing feed: {err}")`. -/
def validate_feed (outcome : ValidateOutcome) : ValidationResult :=
  match outcome with
  | .clientError msg => .cannotConnect ("Error connecting to feed: " ++ msg)
  | .response status entries feedTitle =>
    match validate_feed_body status entries feedTitle with
    | .ok t => .valid t
    | .error e => .invalidFeed ("Error parsing feed: " ++ excMessage e)

/-! ### Proof infrastructure for the merge loop -/

/-- The links of a history, in order. -/
def linksOf (l : List Movie) : List String := l.map (fun m => m.link)

/-- The unique ids of a history, in order. -/
def uidsOf (l : List Movie) : List String := l.map (fun m => m.unique_id)

/-- Recursive reformulation of the merge loop: because `mergeStep` keeps the
seen-link and seen-id lists equal to the links and ids of the accumulated
list, the loop state can be replaced by the list itself. -/
def mergeSimple (stored : List Movie) : List Movie → List Movie
  | [] => stored
  | m :: rest =>
    if m.link ∉ linksOf stored ∧ m.unique_id ∉ uidsOf stored then
      mergeSimple (stored ++ [m]) rest
    else mergeSimple stored rest

theorem merge_eq_mergeSimple (rss : List Movie) :
    ∀ stored, merge_rss_into_stored stored rss = mergeSimple stored rss := by
  induction rss with
  | nil => intro stored; rfl
  | cons m rest ih =>
    intro stored
    show (List.foldl mergeStep (mergeStep _ m) rest).1 = _
    by_cases hc : m.link ∉ linksOf stored ∧ m.unique_id ∉ uidsOf stored
    · have hstep : mergeStep (stored, stored.map (fun x => x.link),
          stored.map (fun x => x.unique_id)) m =
          (stored ++ [m], (stored ++ [m]).map (fun x => x.link),
            (stored ++ [m]).map (fun x => x.unique_id)) := by
        simp only [mergeStep, linksOf, uidsOf] at hc ⊢
        rw [if_pos hc]
        simp
      rw [hstep, mergeSimple, if_pos hc]
      exact ih (stored ++ [m])
    · have hstep : mergeStep (stored, stored.map (fun x => x.link),
          stored.map (fun x => x.unique_id)) m =
          (stored, stored.map (fun x => x.link), stored.map (fun x => x.unique_id)) := by
        simp only [mergeStep, linksOf, uidsOf] at hc ⊢
        rw [if_neg hc]
      rw [hstep, mergeSimple, if_neg hc]
      exact ih stored

/-- Structure of one merge pass: the stored history is kept as a prefix and
the appended movies come from the feed, collide with no stored link or id,
and are pairwise distinct in both links and ids. -/
theorem mergeSimple_spec (rss : List Movie) :
    ∀ stored, ∃ app,
      mergeSimple stored rss = stored ++ app ∧
      (∀ a ∈ app, a ∈ rss ∧ a.link ∉ linksOf stored ∧ a.unique_id ∉ uidsOf stored) ∧
      (linksOf app).Nodup ∧ (uidsOf app).Nodup := by
  induction rss with
  | nil =>
    intro stored
    exact ⟨[], by simp [mergeSimple], by simp, by simp [linksOf], by simp [uidsOf]⟩
  | cons m rest ih =>
    intro stored
    by_cases hc : m.link ∉ linksOf stored ∧ m.unique_id ∉ uidsOf stored
    · obtain ⟨app, happ, hmem, hnl, hnu⟩ := ih (stored ++ [m])
      have hlinkm : ∀ a ∈ app, a.link ≠ m.link := by
        intro a ha
        have := (hmem a ha).2.1
        simp [linksOf] at this
        exact this.2
      have huidm : ∀ a ∈ app, a.unique_id ≠ m.unique_id := by
        intro a ha
        have := (hmem a ha).2.2
        simp [uidsOf] at this
        exact this.2
      refine ⟨m :: app, ?_, ?_, ?_, ?_⟩
      · rw [mergeSimple, if_pos hc, happ]
        simp
      · intro a ha
        rcases List.mem_cons.mp ha with rfl | ha'
        · exact ⟨List.mem_cons_self _ _, hc.1, hc.2⟩
        · obtain ⟨har, hal, hau⟩ := hmem a ha'
          refine ⟨List.mem_cons_of_mem _ har, fun hin => hal ?_, fun hin => hau ?_⟩
          · simp [linksOf] at hin ⊢
            exact Or.inl hin
          · simp [uidsOf] at hin ⊢
            exact Or.inl hin
      · rw [show linksOf (m :: app) = m.link :: linksOf app from rfl, List.nodup_cons]
        refine ⟨fun hin => ?_, hnl⟩
        simp only [linksOf, List.mem_map] at hin
        obtain ⟨a, ha, hae⟩ := hin
        exact hlinkm a ha hae
      · rw [show uidsOf (m :: app) = m.unique_id :: uidsOf app from rfl, List.nodup_cons]
        refine ⟨fun hin => ?_, hnu⟩
        simp only [uidsOf, List.mem_map] at hin
        obtain ⟨a, ha, hae⟩ := hin
        exact huidm a ha hae
    · obtain ⟨app, happ, hmem, hnl, hnu⟩ := ih stored
      rw [mergeSimple, if_neg hc]
      refine ⟨app, happ, fun a ha => ?_, hnl, hnu⟩
      obtain ⟨har, hal, hau⟩ := hmem a ha
      exact ⟨List.mem_cons_of_mem _ har, hal, hau⟩

theorem linksOf_append (l₁ l₂ : List Movie) :
    linksOf (l₁ ++ l₂) = linksOf l₁ ++ linksOf l₂ := by simp [linksOf]

theorem uidsOf_append (l₁ l₂ : List Movie) :
    uidsOf (l₁ ++ l₂) = uidsOf l₁ ++ uidsOf l₂ := by simp [uidsOf]

/-- After a merge pass, every feed movie's link or id is present in the
result: either it was blocked by a present one, or it was appended. -/
theorem mergeSimple_covers (rss : List Movie) :
    ∀ stored, ∀ m ∈ rss,
      m.link ∈ linksOf (mergeSimple stored rss) ∨
        m.unique_id ∈ uidsOf (mergeSimple stored rss) := by
  induction rss with
  | nil => intro stored m hm; cases hm
  | cons x rest ih =>
    intro stored m hm
    by_cases hc : x.link ∉ linksOf stored ∧ x.unique_id ∉ uidsOf stored
    · rw [mergeSimple, if_pos hc]
      rcases List.mem_cons.mp hm with rfl | hm'
      · obtain ⟨app, happ, -, -, -⟩ := mergeSimple_spec rest (stored ++ [m])
        left
        rw [happ, linksOf_append, linksOf_append]
        simp [linksOf]
      · exact ih (stored ++ [x]) m hm'
    · rw [mergeSimple, if_neg hc]
      rcases List.mem_cons.mp hm with rfl | hm'
      · obtain ⟨app, happ, -, -, -⟩ := mergeSimple_spec rest stored
        rw [happ]
        rcases not_and_or.mp hc with h | h
        · left
          rw [linksOf_append]
          exact List.mem_append_left _ (not_not.mp h)
        · right
          rw [uidsOf_append]
          exact List.mem_append_left _ (not_not.mp h)
      · exact ih stored m hm'

/-- A merge pass whose movies are all already covered by the stored links or
ids appends nothing. -/
theorem mergeSimple_of_covered (rss : List Movie) :
    ∀ stored, (∀ m ∈ rss, m.link ∈ linksOf stored ∨ m.unique_id ∈ uidsOf stored) →
      mergeSimple stored rss = stored := by
  induction rss with
  | nil => intro stored _; rfl
  | cons x rest ih =>
    intro stored hcov
    have hx := hcov x (List.mem_cons_self _ _)
    have hc : ¬(x.link ∉ linksOf stored ∧ x.unique_id ∉ uidsOf stored) := by
      rcases hx with h | h
      · exact fun hand => hand.1 h
      · exact fun hand => hand.2 h
    rw [mergeSimple, if_neg hc]
    exact ih stored (fun m hm => hcov m (List.mem_cons_of_mem _ hm))

theorem linksOf_perm {l₁ l₂ : List Movie} (h : List.Perm l₁ l₂) : List.Perm (linksOf l₁) (linksOf l₂) := h.map _

theorem uidsOf_perm {l₁ l₂ : List Movie} (h : List.Perm l₁ l₂) : List.Perm (uidsOf l₁) (uidsOf l₂) := h.map _

theorem nodup_map_sortAndTrim (f : Movie → String) {l : List Movie}
    (h : (l.map f).Nodup) : ((sortAndTrim l).map f).Nodup := by
  have hperm : List.Perm (l.map f) ((l.insertionSort movieDescR).map f) :=
    ((List.perm_insertionSort movieDescR l).symm).map f
  have h1 : ((l.insertionSort movieDescR).map f).Nodup := hperm.nodup h
  have h2 : List.Sublist ((sortAndTrim l).map f) ((l.insertionSort movieDescR).map f) :=
    (List.take_sublist _ _).map f
  exact h1.sublist h2

/-! ### Claim theorems -/

/-- C1: in every merge cycle a parsed entry whose link equals a stored
event's link, or whose unique_id equals a stored event's unique_id, is never
appended — the merge loop only ever appends movies colliding with no stored
link and no stored unique_id, and those appended are pairwise fresh too —
so when the stored history has no duplicate links and no duplicate
unique_ids, neither has the merged history. -/
theorem merge_blocks_stored_collisions (stored rss : List Movie)
    (hl : (linksOf stored).Nodup) (hu : (uidsOf stored).Nodup) :
    (∃ app, merge_rss_into_stored stored rss = stored ++ app ∧
        ∀ a ∈ app, a.link ∉ linksOf stored ∧ a.unique_id ∉ uidsOf stored) ∧
    (linksOf (mergeCycle stored rss)).Nodup ∧ (uidsOf (mergeCycle stored rss)).Nodup := by
  obtain ⟨app, happ, hmem, hnl, hnu⟩ := mergeSimple_spec rss stored
  have hmerge : merge_rss_into_stored stored rss = stored ++ app :=
    (merge_eq_mergeSimple rss stored).trans happ
  have hlink : (linksOf (stored ++ app)).Nodup := by
    rw [linksOf_append, List.nodup_append]
    refine ⟨hl, hnl, fun x hx hx2 => ?_⟩
    simp only [linksOf, List.mem_map] at hx2
    obtain ⟨a, ha, hae⟩ := hx2
    exact (hmem a ha).2.1 (hae ▸ hx)
  have huid : (uidsOf (stored ++ app)).Nodup := by
    rw [uidsOf_append, List.nodup_append]
    refine ⟨hu, hnu, fun x hx hx2 => ?_⟩
    simp only [uidsOf, List.mem_map] at hx2
    obtain ⟨a, ha, hae⟩ := hx2
    exact (hmem a ha).2.2 (hae ▸ hx)
  refine ⟨⟨app, hmerge, fun a ha => ⟨(hmem a ha).2.1, (hmem a ha).2.2⟩⟩, ?_, ?_⟩
  · have := nodup_map_sortAndTrim (fun m => m.link) (l := stored ++ app) hlink
    rw [show mergeCycle stored rss = sortAndTrim (stored ++ app) from by
      rw [mergeCycle, hmerge]]
    exact this
  · have := nodup_map_sortAndTrim (fun m => m.unique_id) (l := stored ++ app) huid
    rw [show mergeCycle stored rss = sortAndTrim (stored ++ app) from by
      rw [mergeCycle, hmerge]]
    exact this

def c1Stored : List Movie :=
  [{ movie_title := "Alpha", rating := none, year := none, image_url := none,
     date_added := "2024-01-01T00:00:00", link := "https://letterboxd.com/u/film/alpha/",
     unique_id := "uid-alpha" }]

def c1Rss : List Movie :=
  [{ movie_title := "Alpha retitled", rating := some 4, year := some 2024, image_url := none,
     date_added := "2024-01-01T00:00:00", link := "https://letterboxd.com/u/film/alpha/",
     unique_id := "uid-alpha-2" },
   { movie_title := "Collide", rating := none, year := none, image_url := none,
     date_added := "2024-03-03T00:00:00", link := "https://letterboxd.com/u/film/other/",
     unique_id := "uid-alpha" },
   { movie_title := "Beta", rating := none, year := none, image_url := none,
     date_added := "2024-02-02T00:00:00", link := "https://letterboxd.com/u/film/beta/",
     unique_id := "uid-beta" }]

theorem merge_blocks_stored_collisions_witness :
    (linksOf c1Stored).Nodup ∧ (uidsOf c1Stored).Nodup ∧
    (linksOf (mergeCycle c1Stored c1Rss)).Nodup ∧
    (uidsOf (mergeCycle c1Stored c1Rss)).Nodup := by
  have h := merge_blocks_stored_collisions c1Stored c1Rss (by decide) (by decide)
  exact ⟨by decide, by decide, h.2.1, h.2.2⟩

/-- C2: after every successful merge cycle the persisted history is sorted
descending by the `date_added` string under Python's lexicographic
comparison, has length at most 500, splits the merged pool into the retained
and dropped parts (a permutation), every retained entry is at least as
recent as every dropped entry, and every `take`-window of it (in particular
the projected `movies` list) is sorted the same way. -/
theorem mergeCycle_sorted_bounded (stored rss : List Movie) (n : Nat) :
    List.Sorted movieDescR (mergeCycle stored rss) ∧
    (mergeCycle stored rss).length ≤ MAX_STORED_MOVIES ∧
    List.Perm
      (mergeCycle stored rss ++
        ((merge_rss_into_stored stored rss).insertionSort movieDescR).drop MAX_STORED_MOVIES)
      (merge_rss_into_stored stored rss) ∧
    (∀ x ∈ mergeCycle stored rss,
        ∀ y ∈ ((merge_rss_into_stored stored rss).insertionSort movieDescR).drop
            MAX_STORED_MOVIES,
          movieDescR x y) ∧
    List.Sorted movieDescR ((mergeCycle stored rss).take n) := by
  have hsort : List.Sorted movieDescR
      ((merge_rss_into_stored stored rss).insertionSort movieDescR) :=
    List.sorted_insertionSort _ _
  have hcyc : mergeCycle stored rss =
      ((merge_rss_into_stored stored rss).insertionSort movieDescR).take MAX_STORED_MOVIES := rfl
  refine ⟨?_, ?_, ?_, ?_, ?_⟩
  · rw [hcyc]
    exact List.Pairwise.sublist (List.take_sublist _ _) hsort
  · rw [hcyc, List.length_take]
    exact Nat.min_le_left _ _
  · rw [hcyc, List.take_append_drop]
    exact List.perm_insertionSort _ _
  · intro x hx y hy
    rw [hcyc] at hx
    exact hsort.rel_of_mem_take_of_mem_drop hx hy
  · rw [hcyc, List.take_take]
    exact List.Pairwise.sublist (List.take_sublist _ _) hsort

/-- C5 (amended): provided the merged pool fits under the 500 cap (so the
truncation drops nothing), merging the same parsed list twice yields the same
history as merging it once; and the merge-sort-truncate step with an empty
new-entries list on an already-sorted, already-bounded history returns it
unchanged. -/
theorem mergeCycle_idempotent (stored rss : List Movie)
    (hlen : (merge_rss_into_stored stored rss).length ≤ MAX_STORED_MOVIES) :
    mergeCycle (mergeCycle stored rss) rss = mergeCycle stored rss ∧
    (∀ h : List Movie, List.Sorted movieDescR h → h.length ≤ MAX_STORED_MOVIES →
      mergeCycle h [] = h) := by
  constructor
  · have hlen2 : ((merge_rss_into_stored stored rss).insertionSort movieDescR).length ≤
        MAX_STORED_MOVIES := by
      rw [List.length_insertionSort]; exact hlen
    have hR : mergeCycle stored rss =
        (merge_rss_into_stored stored rss).insertionSort movieDescR :=
      List.take_of_length_le hlen2
    have hsorted : List.Sorted movieDescR (mergeCycle stored rss) := by
      rw [hR]; exact List.sorted_insertionSort _ _
    have hcov : ∀ m ∈ rss,
        m.link ∈ linksOf (mergeCycle stored rss) ∨
          m.unique_id ∈ uidsOf (mergeCycle stored rss) := by
      intro m hm
      have h1 := mergeSimple_covers rss stored m hm
      rw [← merge_eq_mergeSimple] at h1
      have hpl : List.Perm (linksOf (merge_rss_into_stored stored rss))
          (linksOf (mergeCycle stored rss)) := by
        rw [hR]
        exact (linksOf_perm (List.perm_insertionSort movieDescR _)).symm
      have hpu : List.Perm (uidsOf (merge_rss_into_stored stored rss))
          (uidsOf (mergeCycle stored rss)) := by
        rw [hR]
        exact (uidsOf_perm (List.perm_insertionSort movieDescR _)).symm
      rcases h1 with h | h
      · exact Or.inl (hpl.mem_iff.mp h)
      · exact Or.inr (hpu.mem_iff.mp h)
    have hmerge2 : merge_rss_into_stored (mergeCycle stored rss) rss = mergeCycle stored rss := by
      rw [merge_eq_mergeSimple]
      exact mergeSimple_of_covered rss _ hcov
    show sortAndTrim (merge_rss_into_stored (mergeCycle stored rss) rss) = _
    rw [hmerge2]
    show ((mergeCycle stored rss).insertionSort movieDescR).take _ = _
    rw [hsorted.insertionSort_eq]
    apply List.take_of_length_le
    rw [hR, List.length_insertionSort]
    exact hlen
  · intro h hs hl
    show sortAndTrim (merge_rss_into_stored h []) = h
    rw [show merge_rss_into_stored h [] = h from rfl]
    show (h.insertionSort movieDescR).take _ = h
    rw [hs.insertionSort_eq]
    exact List.take_of_length_le hl

/-- A filler history entry used by the idempotence counterexample: distinct
dates `"1000"`, …, `"1498"`, distinct links and ids. -/
def fillerMovie (i : Nat) : Movie :=
  { movie_title := "f", rating := none, year := none, image_url := none,
    date_added := toString (1000 + i), link := "l" ++ toString i, unique_id := "s" ++ toString i }

/-- The oldest stored entry; its link `"L"` blocks the fresh entry `cexE1`. -/
def oldMovie : Movie :=
  { movie_title := "old", rating := none, year := none, image_url := none,
    date_added := "0000", link := "L", unique_id := "x" }

/-- A full stored history of exactly 500 entries, sorted descending:
499 fillers and then `oldMovie`. -/
def cexStored : List Movie :=
  ((List.range 499).map (fun i => fillerMovie (498 - i))) ++ [oldMovie]

/-- A parsed entry sharing `oldMovie`'s link but with a newer date. -/
def cexE1 : Movie :=
  { movie_title := "e1", rating := none, year := none, image_url := none,
    date_added := "9999", link := "L", unique_id := "p" }

/-- A fresh parsed entry whose insertion pushes the history over the cap. -/
def cexE2 : Movie :=
  { movie_title := "e2", rating := none, year := none, image_url := none,
    date_added := "8888", link := "M", unique_id := "q" }

def cexRss : List Movie := [cexE1, cexE2]

set_option maxRecDepth 100000 in
/-- C5 counterexample: with a full 500-entry history, merging the same two
parsed entries twice does not equal merging them once. In the first cycle
`cexE1` is blocked by `oldMovie`'s link and `cexE2`'s insertion truncates
`oldMovie` away; in the second cycle nothing blocks `cexE1` any more, so it
is appended and the resulting history differs (its head is now `cexE1`). -/
theorem mergeCycle_not_idempotent :
    mergeCycle (mergeCycle cexStored cexRss) cexRss ≠ mergeCycle cexStored cexRss := by
  intro h
  exact absurd (congrArg (fun l => l.head?.map (fun m => m.date_added)) h) (by decide)

def c5Stored : List Movie :=
  [{ movie_title := "A", rating := none, year := none, image_url := none,
     date_added := "2024-05-05T00:00:00", link := "https://letterboxd.com/u/film/a/",
     unique_id := "uid-a" },
   { movie_title := "B", rating := none, year := none, image_url := none,
     date_added := "2024-04-04T00:00:00", link := "https://letterboxd.com/u/film/b/",
     unique_id := "uid-b" }]

def c5Rss : List Movie :=
  [{ movie_title := "C", rating := none, year := none, image_url := none,
     date_added := "2024-06-06T00:00:00", link := "https://letterboxd.com/u/film/c/",
     unique_id := "uid-c" }]

theorem mergeCycle_idempotent_witness :
    (merge_rss_into_stored c5Stored c5Rss).length ≤ MAX_STORED_MOVIES ∧
    mergeCycle (mergeCycle c5Stored c5Rss) c5Rss = mergeCycle c5Stored c5Rss ∧
    mergeCycle c5Stored [] = c5Stored := by
  have h := mergeCycle_idempotent c5Stored c5Rss (by decide)
  exact ⟨by decide, h.1, h.2 c5Stored (by decide) (by decide)⟩

/-- C10: a feed entry without a link is normalized with `link = ""`; once a
stored event has the empty link, no parsed entry with the empty link is ever
appended (the whole appended segment has nonempty links); and in general one
merge cycle leaves at most `max (#empty-links stored) 1` events with an
empty link in the history. -/
theorem empty_link_dedup (cfg : FeedConfig) (e : RawEntry) (stored rss : List Movie)
    (he : e.link = none) (hst : "" ∈ linksOf stored) :
    (parseEntry cfg e).link = "" ∧
    (∃ app, merge_rss_into_stored stored rss = stored ++ app ∧ ∀ a ∈ app, a.link ≠ "") ∧
    (∀ s r : List Movie,
      (mergeCycle s r).countP (fun m => m.link == "") ≤
        max (s.countP (fun m => m.link == "")) 1) := by
  refine ⟨?_, ?_, ?_⟩
  · simp [parseEntry, he]
  · obtain ⟨app, happ, hmem, -, -⟩ := mergeSimple_spec rss stored
    refine ⟨app, (merge_eq_mergeSimple rss stored).trans happ, fun a ha hae => ?_⟩
    exact (hmem a ha).2.1 (hae ▸ hst)
  · intro s r
    obtain ⟨app, happ, hmem, hnl, -⟩ := mergeSimple_spec r s
    have hmerge : merge_rss_into_stored s r = s ++ app :=
      (merge_eq_mergeSimple r s).trans happ
    have hcount_le : (mergeCycle s r).countP (fun m => m.link == "") ≤
        (s ++ app).countP (fun m => m.link == "") := by
      have h1 : (mergeCycle s r).countP (fun m => m.link == "") ≤
          ((merge_rss_into_stored s r).insertionSort movieDescR).countP
            (fun m => m.link == "") :=
        (List.take_sublist _ _).countP_le _
      have h2 : ((merge_rss_into_stored s r).insertionSort movieDescR).countP
          (fun m => m.link == "") = (s ++ app).countP (fun m => m.link == "") := by
        rw [(List.perm_insertionSort movieDescR _).countP_eq, hmerge]
      omega
    rw [List.countP_append] at hcount_le
    by_cases hin : "" ∈ linksOf s
    · have happ0 : app.countP (fun m => m.link == "") = 0 := by
        rw [List.countP_eq_zero]
        intro a ha
        simp only [beq_iff_eq]
        intro hae
        exact (hmem a ha).2.1 (hae ▸ hin)
      calc (mergeCycle s r).countP (fun m => m.link == "")
          ≤ s.countP (fun m => m.link == "") + app.countP (fun m => m.link == "") :=
            hcount_le
        _ = s.countP (fun m => m.link == "") := by rw [happ0, Nat.add_zero]
        _ ≤ max (s.countP (fun m => m.link == "")) 1 := le_max_left _ _
    · have hs0 : s.countP (fun m => m.link == "") = 0 := by
        rw [List.countP_eq_zero]
        intro a ha
        simp only [beq_iff_eq]
        intro hae
        exact hin (by
          simp only [linksOf, List.mem_map]
          exact ⟨a, ha, hae⟩)
      have happ1 : app.countP (fun m => m.link == "") ≤ 1 := by
        have hcnt : app.countP (fun m => m.link == "") = (linksOf app).count "" := by
          rw [List.count, linksOf, List.countP_map]
          rfl
        rw [hcnt]
        exact List.nodup_iff_count_le_one.mp hnl ""
      omega

def c10Stored : List Movie :=
  [{ movie_title := "Linkless", rating := none, year := none, image_url := none,
     date_added := "2024-01-01T00:00:00", link := "", unique_id := "uid-first" }]

def c10Rss : List Movie :=
  [{ movie_title := "Linkless two", rating := none, year := none, image_url := none,
     date_added := "2024-05-05T00:00:00", link := "", unique_id := "uid-second" }]

def c10Entry : RawEntry :=
  { title := some "No link here", link := none, published_parsed := none,
    published := some "2024-05-05", content := none, summary := none }

def c10Cfg : FeedConfig :=
  { entry_id := "entry1", feed_name := "feed", feed_url := "https://letterboxd.com/u/rss/",
    max_movies := 5, max_devices := 5 }

theorem empty_link_dedup_witness :
    c10Entry.link = none ∧ "" ∈ linksOf c10Stored ∧
    (parseEntry c10Cfg c10Entry).link = "" ∧
    (mergeCycle c10Stored c10Rss).countP (fun m => m.link == "") ≤
      max (c10Stored.countP (fun m => m.link == "")) 1 := by
  have h := empty_link_dedup c10Cfg c10Entry c10Stored c10Rss rfl (by decide)
  exact ⟨rfl, by decide, h.1, h.2.2 c10Stored c10Rss⟩

theorem stripRating_snd (t : List Char) :
    (stripRating t).2 =
      (if t.contains starChar then
        some ((t.count starChar : Rat) + if t.contains halfChar then (1 : Rat) / 2 else 0)
       else none) := by
  rw [stripRating]
  split
  · rfl
  · rfl

theorem stripRating_fst (t : List Char) :
    (stripRating t).1 =
      (if t.contains starChar then pyStrip (t.takeWhile (fun c => c != starChar)) else t) := by
  rw [stripRating]
  split
  · rfl
  · rfl

/-- C6: `"Dune, 2021 ★★★★½"` parses to rating `4.5`, year `2021`, title
`"Dune"`; in general the rating is the filled-star count plus `0.5` exactly
when a half star is present, absent when no filled star is present, and with
a star present the title is cut at the first star and stripped. -/
theorem rating_parse (t : List Char) :
    parseTitleFields (some "Dune, 2021 ★★★★½") = ("Dune".data, some ((9 : Rat) / 2), some 2021) ∧
    (stripRating t).2 =
      (if t.contains starChar then
        some ((t.count starChar : Rat) + if t.contains halfChar then (1 : Rat) / 2 else 0)
       else none) ∧
    (stripRating t).1 =
      (if t.contains starChar then pyStrip (t.takeWhile (fun c => c != starChar)) else t) := by
  refine ⟨?_, stripRating_snd t, stripRating_fst t⟩
  have h1 : (parseTitleFields (some "Dune, 2021 ★★★★½")).1 = "Dune".data := by decide
  have hy : (parseTitleFields (some "Dune, 2021 ★★★★½")).2.2 = some 2021 := by decide
  have hr : (parseTitleFields (some "Dune, 2021 ★★★★½")).2.1 = some ((9 : Rat) / 2) := by
    have hstep : (parseTitleFields (some "Dune, 2021 ★★★★½")).2.1 =
        (stripRating (pyStrip "Dune, 2021 ★★★★½".data)).2 := rfl
    rw [hstep, stripRating_snd]
    rw [if_pos (by decide), if_pos (by decide)]
    rw [show (pyStrip "Dune, 2021 ★★★★½".data).count starChar = 4 from by decide]
    norm_num
  exact Prod.ext h1 (Prod.ext hr hy)

/-- C8 counterexample: in `"Perfect Days (extended)"` neither year pattern
matches — no trailing `, YYYY` suffix and no parenthesized four-digit year —
so by the claim the title should be left as-is; the code still strips
everything from the last `(` on, returning `"Perfect Days"`. -/
theorem paren_no_year_still_strips :
    findTrailingYear "Perfect Days (extended)".data = none ∧
    findParenYear "Perfect Days (extended)".data = none ∧
    (parseTitleFields (some "Perfect Days (extended)")).2.2 = none ∧
    (parseTitleFields (some "Perfect Days (extended)")).1 = "Perfect Days".data := by
  refine ⟨by decide, by decide, by decide, by decide⟩

/-- C8 (amended): when the trailing-year pattern fails, the year is absent;
the title is left as-is (beyond trimming) only when the title does not
contain both `(` and `)` — when it does contain both but no `(YYYY)`
matches, the year is still absent but everything from the last `(` on is
stripped anyway. -/
theorem no_year_title_handling (t : List Char) (hts : findTrailingYear t = none) :
    (¬(t.contains '(' ∧ t.contains ')') → stripYear t = (pyStrip t, none)) ∧
    ((t.contains '(' ∧ t.contains ')') → findParenYear t = none →
      stripYear t = (pyStrip (beforeLastOpenParen t), none)) := by
  constructor
  · intro h
    rw [stripYear, hts, if_neg h]
  · intro h hp
    rw [stripYear, hts, if_pos h, hp]

theorem no_year_title_handling_witness :
    findTrailingYear "Perfect Days".data = none ∧
    stripYear "Perfect Days".data = (pyStrip "Perfect Days".data, none) ∧
    findTrailingYear "a (b)".data = none ∧
    stripYear "a (b)".data = (pyStrip (beforeLastOpenParen "a (b)".data), none) := by
  have h1 := no_year_title_handling "Perfect Days".data (by decide)
  have h2 := no_year_title_handling "a (b)".data (by decide)
  exact ⟨by decide, h1.1 (by decide), by decide, h2.2 (by decide) (by decide)⟩

/-- C7 counterexample: the entry has one content block, which contains no
image, and a summary whose `<img>` search succeeds (it yields `"u"`); by the
claim the summary fallback should produce `image_url = "u"`, but the code
reaches the summary only through `elif` — a present nonempty content list
suppresses it — so `image_url` is absent. -/
theorem content_block_suppresses_summary :
    extractImage (some ["<p>plain text</p>"]) (some "<img src=\x22u\x22>") = none ∧
    summaryImg (some "<img src=\x22u\x22>") = some "u" := by
  exact ⟨by decide, by decide⟩

/-- The last successfully extracted value of `g` over a list, as the
overwrite-on-success fold of the image loop computes it. -/
theorem foldl_lastSome {α β : Type} (g : α → Option β) (bs : List α) :
    ∀ init : Option β,
      bs.foldl (fun acc v => (g v).orElse (fun _ => acc)) init =
        ((bs.filterMap g).getLast?).orElse (fun _ => init) := by
  induction bs with
  | nil => intro init; rfl
  | cons v rest ih =>
    intro init
    rw [List.foldl_cons, ih]
    cases hv : g v with
    | none => simp [List.filterMap_cons, hv, Option.orElse]
    | some b =>
      simp only [List.filterMap_cons, hv]
      cases hfm : rest.filterMap g with
      | nil => simp [Option.orElse]
      | cons x xs =>
        rw [List.getLast?_cons_cons]
        cases hrest : (x :: xs).getLast? with
        | none => simp [List.getLast?] at hrest
        | some u => simp [Option.orElse]

/-- What one content block contributes: its first extracted `<img>` source,
provided the block's value contains `img` case-insensitively. -/
def blockImg (v : String) : Option String :=
  if containsSub (v.data.map Char.toLower) imgTagLower then (imgSearch v.data).map String.mk
  else none

/-- C7 (amended): the summary is searched only when the entry has no content
blocks — the content attribute is absent or the block list is empty; when
blocks exist, `image_url` is the LAST block extraction that succeeds (each
successful qualifying block overwrites the previous value), absent when
none succeeds, and the summary is never consulted. -/
theorem image_extraction_behavior (blocks : List String) (s : Option String)
    (hb : blocks ≠ []) :
    extractImage none s = summaryImg s ∧
    extractImage (some []) s = summaryImg s ∧
    extractImage (some blocks) s = (blocks.filterMap blockImg).getLast? := by
  refine ⟨rfl, rfl, ?_⟩
  cases blocks with
  | nil => exact absurd rfl hb
  | cons x xs =>
    have hstep : extractImage (some (x :: xs)) s =
        (x :: xs).foldl (fun acc v =>
          if containsSub (v.data.map Char.toLower) imgTagLower then
            match imgSearch v.data with
            | some b => some (String.mk b)
            | none => acc
          else acc) none := rfl
    rw [hstep]
    rw [List.foldl_ext _ (fun acc v => (blockImg v).orElse (fun _ => acc)) none ?_]
    · rw [foldl_lastSome blockImg (x :: xs) none]
      cases ((x :: xs).filterMap blockImg).getLast? with
      | none => rfl
      | some u => rfl
    · intro a v _
      by_cases h : containsSub (v.data.map Char.toLower) imgTagLower
      · simp only [blockImg, if_pos h]
        cases imgSearch v.data with
        | none => rfl
        | some b => rfl
      · simp only [blockImg, if_neg h]
        rfl

def c7Blocks : List String :=
  ["<img src=\x22a\x22>", "<p>no image here</p>", "IMG <img alt=x src=\x22b\x22>"]

theorem image_extraction_behavior_witness :
    extractImage none (some "<img src=\x22s\x22>") = summaryImg (some "<img src=\x22s\x22>") ∧
    extractImage (some c7Blocks) none = (c7Blocks.filterMap blockImg).getLast? := by
  have h := image_extraction_behavior c7Blocks none (by decide)
  exact ⟨(image_extraction_behavior ["x"] (some "<img src=\x22s\x22>") (by decide)).1, h.2.2⟩

def c9LbEntry : RawEntry :=
  { title := some "Film", link := some "https://letterboxd.com/u/film/x/",
    published_parsed := none, published := none, content := none, summary := none }

def c9OtherEntry : RawEntry :=
  { title := some "Other", link := some "https://example.com/a/",
    published_parsed := none, published := none, content := none, summary := none }

/-- C9: how `validate_feed` classifies its rejections. A transport error is
surfaced as the cannot-connect kind, and an empty feed or one whose first
three entries lack the expected host are surfaced as the invalid-feed kind —
but an HTTP status ≠ 200, for which the code deliberately raises
`CannotConnect("HTTP {status}")`, is re-caught by the function's own
trailing `except Exception` clause and surfaces as the INVALID-FEED kind,
contradicting the intended classification. A fourth entry with a matching
link does not save a feed whose first three entries all lack the host. -/
theorem validate_feed_classification :
    validate_feed (.clientError "timeout") =
      .cannotConnect "Error connecting to feed: timeout" ∧
    validate_feed (.response 503 [c9LbEntry] (some "T")) =
      .invalidFeed "Error parsing feed: HTTP 503" ∧
    validate_feed (.response 200 [] (some "T")) =
      .invalidFeed "Error parsing feed: Feed appears to be empty or invalid" ∧
    validate_feed (.response 200 [c9OtherEntry, c9OtherEntry, c9OtherEntry, c9LbEntry]
        (some "T")) =
      .invalidFeed "Error parsing feed: Feed does not appear to be a valid Letterboxd feed" ∧
    validate_feed (.response 200 [c9LbEntry] none) = .valid "Letterboxd Feed" := by
  refine ⟨rfl, by decide, rfl, by decide, by decide⟩

/-- C3: on a transport error or a non-200 status the update performs no
persistence write (the save component of the result is `none`, so the stored
blob is untouched) and returns the windows of the loaded stored history with
the error string attached. -/
theorem error_paths_read_only (cfg : FeedConfig) (sb : StorageBehavior)
    (d : Option (List Movie)) (now msg : String) (status : Nat) (entries : List RawEntry)
    (hload : sb.loadResult = .ok d) (hstatus : status ≠ 200) :
    ∃ stored, load_stored cfg sb = .ok stored ∧
      async_update_data cfg sb (.clientError msg) now =
        .ok ({ movies := stored.take cfg.max_movies,
               movies_for_devices := stored.take cfg.max_devices,
               latest_movie := (stored.take cfg.max_movies).head?,
               feed_url := cfg.feed_url, last_update := now,
               error := some msg }, none) ∧
      async_update_data cfg sb (.response status entries) now =
        .ok ({ movies := stored.take cfg.max_movies,
               movies_for_devices := stored.take cfg.max_devices,
               latest_movie := (stored.take cfg.max_movies).head?,
               feed_url := cfg.feed_url, last_update := now,
               error := some ("HTTP " ++ toString status) }, none) := by
  cases d with
  | none =>
    refine ⟨[], ?_, ?_, ?_⟩
    · rw [load_stored, hload]
      rfl
    · rw [async_update_data, load_stored, hload]
      rfl
    · rw [async_update_data, if_pos hstatus, load_stored, hload]
      rfl
  | some movies =>
    refine ⟨movies.map (fun m =>
      { m with unique_id :=
          movie_unique_id_from_link_date cfg.entry_id cfg.feed_name m.link m.date_added }),
      ?_, ?_, ?_⟩
    · rw [load_stored, hload]
      rfl
    · rw [async_update_data, load_stored, hload]
      rfl
    · rw [async_update_data, if_pos hstatus, load_stored, hload]
      rfl

def c3Cfg : FeedConfig :=
  { entry_id := "entry1", feed_name := "diary", feed_url := "https://letterboxd.com/u/rss/",
    max_movies := 2, max_devices := 1 }

def c3Movies : List Movie :=
  [{ movie_title := "A", rating := none, year := none, image_url := none,
     date_added := "2024-03-03T00:00:00", link := "https://letterboxd.com/u/film/a/",
     unique_id := "old-id-a" },
   { movie_title := "B", rating := none, year := none, image_url := none,
     date_added := "2024-02-02T00:00:00", link := "https://letterboxd.com/u/film/b/",
     unique_id := "old-id-b" },
   { movie_title := "C", rating := none, year := none, image_url := none,
     date_added := "2024-01-01T00:00:00", link := "https://letterboxd.com/u/film/c/",
     unique_id := "old-id-c" }]

def c3Sb : StorageBehavior :=
  { loadResult := .ok (some c3Movies), saveResult := .ok () }

theorem error_paths_read_only_witness :
    ∃ stored, load_stored c3Cfg c3Sb = .ok stored ∧
      async_update_data c3Cfg c3Sb (.clientError "Cannot connect to host") "t" =
        .ok ({ movies := stored.take c3Cfg.max_movies,
               movies_for_devices := stored.take c3Cfg.max_devices,
               latest_movie := (stored.take c3Cfg.max_movies).head?,
               feed_url := c3Cfg.feed_url, last_update := "t",
               error := some "Cannot connect to host" }, none) ∧
      async_update_data c3Cfg c3Sb (.response 503 []) "t" =
        .ok ({ movies := stored.take c3Cfg.max_movies,
               movies_for_devices := stored.take c3Cfg.max_devices,
               latest_movie := (stored.take c3Cfg.max_movies).head?,
               feed_url := c3Cfg.feed_url, last_update := "t",
               error := some ("HTTP " ++ toString 503) }, none) :=
  error_paths_read_only c3Cfg c3Sb (some c3Movies) "t" "Cannot connect to host" 503 [] rfl
    (by decide)

def c4Cfg : FeedConfig :=
  { entry_id := "entry1", feed_name := "diary", feed_url := "https://letterboxd.com/u/rss/",
    max_movies := 5, max_devices := 5 }

def c4SbLoadFail : StorageBehavior :=
  { loadResult := .error "Unable to parse JSON", saveResult := .ok () }

/-- C4 counterexample: after a successful fetch (HTTP 200), an exception
from loading the stored history — which happens in the merge section, below
the coordinator's try/except — propagates out of the update instead of being
turned into a fallback output, because only the fetch/parse phase is covered
by the exception handlers. -/
theorem storage_exception_propagates :
    async_update_data c4Cfg c4SbLoadFail (.response 200 []) "t" =
      .error "Unable to parse JSON" := rfl

/-- C4 (amended): an exception raised while processing the fetched feed
inside the try block yields the read-only fallback output with the error
string attached, and nothing is written; but an exception from the storage
collaborator — loading or saving, both of which the code runs outside the
try/except — propagates to the caller. -/
theorem processing_exception_handling (cfg : FeedConfig) (sb : StorageBehavior)
    (d : Option (List Movie)) (now msg : String) (entries : List RawEntry)
    (hload : sb.loadResult = .ok d) :
    (∃ stored, load_stored cfg sb = .ok stored ∧
      async_update_data cfg sb (.processingError msg) now =
        .ok ({ movies := stored.take cfg.max_movies,
               movies_for_devices := stored.take cfg.max_devices,
               latest_movie := (stored.take cfg.max_movies).head?,
               feed_url := cfg.feed_url, last_update := now,
               error := some msg }, none)) ∧
    (∀ (sb2 : StorageBehavior) (e : String), sb2.loadResult = .error e →
      async_update_data cfg sb2 (.response 200 entries) now = .error e) ∧
    (∀ e : String, sb.saveResult = .error e →
      async_update_data cfg sb (.response 200 entries) now = .error e) := by
  refine ⟨?_, ?_, ?_⟩
  · cases d with
    | none =>
      refine ⟨[], ?_, ?_⟩
      · rw [load_stored, hload]
        rfl
      · rw [async_update_data, load_stored, hload]
        rfl
    | some movies =>
      refine ⟨movies.map (fun m =>
        { m with unique_id :=
            movie_unique_id_from_link_date cfg.entry_id cfg.feed_name m.link m.date_added }),
        ?_, ?_⟩
      · rw [load_stored, hload]
        rfl
      · rw [async_update_data, load_stored, hload]
        rfl
  · intro sb2 e he
    rw [async_update_data, if_neg (by decide : ¬(200 : Nat) ≠ 200)]
    show (do
      let stored ← load_stored cfg sb2
      let merged := mergeCycle stored (entries.map (parseEntry cfg))
      let _ ← sb2.saveResult
      let movies := merged.take cfg.max_movies
      pure ({ movies := movies
              movies_for_devices := merged.take cfg.max_devices
              latest_movie := movies.head?
              feed_url := cfg.feed_url
              last_update := now
              error := none }, some merged) :
        Except String (UpdateOutput × Option (List Movie))) = .error e
    rw [load_stored, he]
    rfl
  · intro e he
    rw [async_update_data, if_neg (by decide : ¬(200 : Nat) ≠ 200)]
    show (do
      let stored ← load_stored cfg sb
      let merged := mergeCycle stored (entries.map (parseEntry cfg))
      let _ ← sb.saveResult
      let movies := merged.take cfg.max_movies
      pure ({ movies := movies
              movies_for_devices := merged.take cfg.max_devices
              latest_movie := movies.head?
              feed_url := cfg.feed_url
              last_update := now
              error := none }, some merged) :
        Except String (UpdateOutput × Option (List Movie))) = .error e
    rw [load_stored, hload, he]
    cases d with
    | none => rfl
    | some movies => rfl

def c4SbSaveFail : StorageBehavior :=
  { loadResult := .ok (some []), saveResult := .error "disk full" }

theorem processing_exception_handling_witness :
    (∃ stored, load_stored c4Cfg c4SbSaveFail = .ok stored ∧
      async_update_data c4Cfg c4SbSaveFail (.processingError "boom") "t" =
        .ok ({ movies := stored.take c4Cfg.max_movies,
               movies_for_devices := stored.take c4Cfg.max_devices,
               latest_movie := (stored.take c4Cfg.max_movies).head?,
               feed_url := c4Cfg.feed_url, last_update := "t",
               error := some "boom" }, none)) ∧
    async_update_data c4Cfg c4SbSaveFail (.response 200 []) "t" = .error "disk full" := by
  have h := processing_exception_handling c4Cfg c4SbSaveFail (some []) "t" "boom" [] rfl
  exact ⟨h.1, h.2.2 "disk full" rfl⟩

end Letterboxd
